import Mathlib

/-!
Verification of the view-resolution engine of `confit.py` (the confuse
repository). The Python data values that configuration sources, the overlay
and subscript keys range over are embedded as inductive types, the
subscripting / membership / item-assignment primitives of Python are modelled
explicitly, and the classes `ConfigView`, `RootView` and `Subview` are
translated into pure functions over a root state (overlay plus source list)
and a key path.
-/

set_option autoImplicit false

namespace Confit

/-- A Python subscript key as used by `Subview`: either a string or an
integer. (Other hashable key types do not occur in the repository.) -/
inductive Key where
  | str (s : String)
  | int (n : Int)
  deriving DecidableEq, Repr

/-- A Python value as it occurs in configuration trees: `None`, booleans,
integers, strings, lists, and dicts (modelled as insertion-ordered
association lists, as Python dicts are). -/
inductive Value where
  | null
  | bool (b : Bool)
  | int (n : Int)
  | str (s : String)
  | list (xs : List Value)
  | dict (xs : List (Key × Value))
  deriving Repr

/-- `str(type(v))` for each modelled Python value, as interpolated by the
`%s` / `format` error messages of `confit.py`. -/
def pyTypeName : Value → String
  | .null => "<class 'NoneType'>"
  | .bool _ => "<class 'bool'>"
  | .int _ => "<class 'int'>"
  | .str _ => "<class 'str'>"
  | .list _ => "<class 'list'>"
  | .dict _ => "<class 'dict'>"

/-- Whether a value is a Python dict (the only modelled value with a
`.keys()` attribute, used by `ConfigView.keys`). -/
def Value.isDict : Value → Bool
  | .dict _ => true
  | _ => false

/-- The built-in Python exceptions that `Subview.get_all`,
`Subview.overlay` and `ConfigView.__setitem__` can encounter when
subscripting or testing membership. -/
inductive PyErr where
  | keyError
  | indexError
  | typeError
  deriving DecidableEq, Repr

/-- First-match lookup in an association list, i.e. Python dict item access
(Python dicts have unique keys, which lookup-by-first-match refines). -/
def assocGet : List (Key × Value) → Key → Option Value
  | [], _ => none
  | (k', v') :: rest, k => if k' = k then some v' else assocGet rest k

/-- Python dict item assignment on an association list: replace the value of
an existing key in place, otherwise append (insertion order semantics). -/
def assocSet : List (Key × Value) → Key → Value → List (Key × Value)
  | [], k, x => [(k, x)]
  | (k', v') :: rest, k, x =>
    if k' = k then (k', x) :: rest else (k', v') :: assocSet rest k x

/-- Python sequence indexing over a list: negative indices count from the
end; an index outside the range raises `IndexError`. -/
def pyIndex (xs : List Value) (n : Int) : Except PyErr Value :=
  let i : Int := if n < 0 then n + xs.length else n
  match xs.get? i.toNat with
  | some v => if 0 ≤ i then .ok v else .error .indexError
  | none => .error .indexError

/-- Python string indexing: negative indices count from the end and a
one-character string is returned; out of range raises `IndexError`. -/
def pyStrIndex (s : String) (n : Int) : Except PyErr Value :=
  let cs := s.data
  let i : Int := if n < 0 then n + cs.length else n
  match cs.get? i.toNat with
  | some c => if 0 ≤ i then .ok (.str (String.mk [c])) else .error .indexError
  | none => .error .indexError

/-- The Python subscript expression `collection[key]` for the modelled
values: dicts raise `KeyError` on an absent key, lists and strings raise
`IndexError` out of range and `TypeError` on a string subscript, and
scalars (`None`, booleans, integers) are not subscriptable at all and raise
`TypeError`. This is the primitive `Subview.get_all` wraps. -/
def pyGetitem : Value → Key → Except PyErr Value
  | .dict xs, k =>
    match assocGet xs k with
    | some v => .ok v
    | none => .error .keyError
  | .list xs, .int n => pyIndex xs n
  | .list _, .str _ => .error .typeError
  | .str s, .int n => pyStrIndex s n
  | .str _, .str _ => .error .typeError
  | .null, _ => .error .typeError
  | .bool _, _ => .error .typeError
  | .int _, _ => .error .typeError

/-- The Python statement `collection[key] = x` for the modelled values:
dict assignment always succeeds (replace or append), list assignment
requires an in-range integer index, everything else raises `TypeError`. -/
def pySetitem : Value → Key → Value → Except PyErr Value
  | .dict xs, k, x => .ok (.dict (assocSet xs k x))
  | .list xs, .int n, x =>
    let i : Int := if n < 0 then n + xs.length else n
    if 0 ≤ i ∧ i < xs.length then
      .ok (.list (xs.set i.toNat x))
    else
      .error .indexError
  | .list _, .str _, _ => .error .typeError
  | .str _, _, _ => .error .typeError
  | .null, _, _ => .error .typeError
  | .bool _, _, _ => .error .typeError
  | .int _, _, _ => .error .typeError

/-- Python `==` between a subscript key and a container element, as used by
`key in somelist`. Python booleans compare equal to the integers 0 and 1. -/
def valEqKey : Key → Value → Bool
  | .int n, .int m => n == m
  | .int n, .bool b => n == (if b then (1 : Int) else 0)
  | .str s, .str t => s == t
  | _, _ => false

/-- Whether `needle` occurs as a contiguous substring of `hay`, i.e. Python
`needle in hay` for strings. -/
def strContains (hay needle : String) : Bool :=
  (List.range (hay.data.length + 1)).any fun i =>
    needle.data.isPrefixOf (hay.data.drop i)

/-- The Python expression `key not in collection` as evaluated by
`Subview.overlay`: key membership for dicts, element membership for lists,
substring membership for strings (a `TypeError` for an integer key), and a
`TypeError` for non-iterable scalars. -/
def pyNotIn (k : Key) : Value → Except PyErr Bool
  | .dict xs => .ok (assocGet xs k).isNone
  | .list xs => .ok (!xs.any (valEqKey k))
  | .str s =>
    match k with
    | .str t => .ok (!strContains s t)
    | .int _ => .error .typeError
  | .null => .error .typeError
  | .bool _ => .error .typeError
  | .int _ => .error .typeError

/-- The configuration-query exceptions of `confit.py` that the view engine
raises, each carrying its formatted message: `NotFoundError`,
`ConfigTypeError` and `ConfigValueError`. -/
inductive ConfErr where
  | notFound (msg : String)
  | typeError (msg : String)
  | valueError (msg : String)
  deriving DecidableEq, Repr

/-- The observable behaviour of one `get_all` generator: it yields `vals`
in order, and afterwards either finishes normally (`err = none`) or raises
the recorded exception. (A Python generator that raises stops for good, so
every run is a prefix of values followed by at most one exception.) -/
structure Gen where
  vals : List Value
  err : Option ConfErr
  deriving Repr

/-- Python `repr` for a subscript key, as used by `Subview.__init__` to
build the view's `name` (`'{0}[{1}]'.format(parent.name, repr(key))`). -/
def keyRepr : Key → String
  | .str s => "'" ++ s ++ "'"
  | .int n => toString n

/-- The `name` of the view reached from the root by the given key path:
`RootView` is named `root` and each `Subview` appends `[repr key]`. -/
def pathName (path : List Key) : String :=
  path.foldl (fun acc k => acc ++ "[" ++ keyRepr k ++ "]") "root"

/-- The root state: `RootView` holds the mutable overlay (a dict, initially
empty) and the prioritized list of sources. -/
structure RootView where
  overlay : Value
  sources : List Value

/-- `RootView.get_all`: the candidate stream at the root is
`[self.overlay] + self.sources`, overlay first, and never raises. -/
def rootGetAll (r : RootView) : Gen :=
  ⟨r.overlay :: r.sources, none⟩

/-- `Subview.get_all` over the parent's candidates: for each parent value,
`collection[self.key]` is attempted; `IndexError` and `KeyError` skip the
candidate (`continue`), while `TypeError` raises a `ConfigTypeError` naming
the parent view and the offending value's type, abandoning the rest of the
stream. After all parent values, any pending exception of the parent
generator propagates. -/
def subAll (pname : String) (k : Key) : List Value → Option ConfErr → Gen
  | [], perr => ⟨[], perr⟩
  | v :: rest, perr =>
    match pyGetitem v k with
    | .ok x =>
      let g := subAll pname k rest perr
      ⟨x :: g.vals, g.err⟩
    | .error .indexError => subAll pname k rest perr
    | .error .keyError => subAll pname k rest perr
    | .error .typeError =>
      ⟨[], some (.typeError (pname ++ " must be a collection, not " ++ pyTypeName v))⟩

/-- Resolution of a whole key path: starting from a candidate stream and the
name of the view that produced it, apply `Subview.get_all` once per key,
extending the view name as `Subview.__init__` does. -/
def getAllFrom : Gen → String → List Key → Gen
  | g, _, [] => g
  | g, name, k :: ks =>
    getAllFrom (subAll name k g.vals g.err) (name ++ "[" ++ keyRepr k ++ "]") ks

/-- `get_all` of the view at `path` below the root: `RootView.get_all`
followed by one `Subview.get_all` per key. -/
def viewGetAll (r : RootView) (path : List Key) : Gen :=
  getAllFrom (rootGetAll r) "root" path

/-- The runtime Python types a caller can pass to `ConfigView.get` as the
`typ` argument when it is a type object rather than a callable. -/
inductive PyType where
  | int
  | str
  | bool
  | list
  | dict
  | noneType
  deriving DecidableEq, Repr

/-- `str(typ)` for a type object, as interpolated into the
`ConfigTypeError` message of `ConfigView.get`. -/
def pyTypeStr : PyType → String
  | .int => "<class 'int'>"
  | .str => "<class 'str'>"
  | .bool => "<class 'bool'>"
  | .list => "<class 'list'>"
  | .dict => "<class 'dict'>"
  | .noneType => "<class 'NoneType'>"

/-- Python `isinstance` for the modelled values and types; `bool` is a
subclass of `int`, so booleans are instances of `int`. -/
def isinstance : Value → PyType → Bool
  | .bool _, .int => true
  | .bool _, .bool => true
  | .int _, .int => true
  | .str _, .str => true
  | .list _, .list => true
  | .dict _, .dict => true
  | .null, .noneType => true
  | _, _ => false

/-- The `typ` argument of `ConfigView.get`: absent (`None`), a type object,
or a callable conversion receiving `(view, value)` (modelled as receiving
the view's name). -/
inductive Conversion where
  | noneConv
  | ofType (t : PyType)
  | callable (f : String → Value → Except ConfErr Value)

/-- `ConfigView.get`: pull the first candidate of `get_all` (laziness: later
candidates are never forced). If the generator finishes without a value,
raise `NotFoundError("{name} not found")`; if it raises before the first
value, that exception propagates. With a type object, check `isinstance`
and raise a `ConfigTypeError` naming expected and actual type on mismatch;
with a callable, return `typ(view, value)`. -/
def view_get (r : RootView) (path : List Key) (conv : Conversion) :
    Except ConfErr Value :=
  match (viewGetAll r path).vals, (viewGetAll r path).err with
  | [], some e => .error e
  | [], none => .error (.notFound (pathName path ++ " not found"))
  | v :: _, _ =>
    match conv with
    | .noneConv => .ok v
    | .ofType t =>
      if isinstance v t then .ok v
      else
        .error (.typeError (pathName path ++ " must by of type " ++
          pyTypeStr t ++ ", not " ++ pyTypeName v))
    | .callable f => f (pathName path) v

/-- Insert every key of `ks` that is not already present into `acc`,
keeping first occurrences: the effect of Python's `keys.update(cur_keys)`
on the accumulated set, observed through membership. -/
def setUpdate (acc : List Key) (ks : List Key) : List Key :=
  ks.foldl (fun a k => if k ∈ a then a else a ++ [k]) acc

/-- The loop of `ConfigView.keys`: iterate the whole candidate stream; a
candidate without a `.keys` attribute (any non-dict) raises a
`ConfigTypeError` naming the view; a pending generator exception propagates
once the yielded values are exhausted. -/
def keysAux (name : String) : List Value → Option ConfErr → List Key →
    Except ConfErr (List Key)
  | [], perr, acc =>
    match perr with
    | some e => .error e
    | none => .ok acc
  | v :: rest, perr, acc =>
    match v with
    | .dict xs => keysAux name rest perr (setUpdate acc (xs.map Prod.fst))
    | _ => .error (.typeError (name ++ " must be a dict, not " ++ pyTypeName v))

/-- `ConfigView.keys` of the view at `path`: union the keys of every dict
candidate of `get_all`, raising on any non-dict candidate. -/
def view_keys (r : RootView) (path : List Key) : Except ConfErr (List Key) :=
  let g := viewGetAll r path
  keysAux (pathName path) g.vals g.err []

/-- The write path `view[key] = value`: `Subview.overlay` walks the overlay
along the view's path, and at each level runs
`if self.key not in parent_overlay: parent_overlay[self.key] = {}` before
descending into `parent_overlay[self.key]`; finally
`ConfigView.__setitem__` performs `self.overlay[key] = value`. Python
mutates the shared overlay in place; the functional translation writes the
updated child back into its parent, which is observationally identical
because a failing step performs no prior mutation. -/
def ovSet (cur : Value) (path : List Key) (k : Key) (x : Value) :
    Except PyErr Value :=
  match path with
  | [] => pySetitem cur k x
  | k0 :: ks =>
    match pyNotIn k0 cur with
    | .error e => .error e
    | .ok notin =>
      match (if notin then pySetitem cur k0 (Value.dict []) else .ok cur) with
      | .error e => .error e
      | .ok cur' =>
        match pyGetitem cur' k0 with
        | .error e => .error e
        | .ok child =>
          match ovSet child ks k x with
          | .error e => .error e
          | .ok child' => pySetitem cur' k0 child'

/-- The overlay tree created by writing `x` at key `k` below `path` into a
previously empty overlay: a chain of fresh singleton dicts. -/
def nestOverlay : List Key → Key → Value → Value
  | [], k, x => .dict [(k, x)]
  | k0 :: ks, k, x => .dict [(k0, nestOverlay ks k x)]

/-! ### C1: candidate order of `get_all` -/

/-- C1: at a `RootView`, `get_all` yields exactly `[overlay] + sources` in
that order (overlay first, sources in priority order); at a `Subview` whose
key never hits a non-subscriptable parent candidate, `get_all` yields, for
each parent candidate in order, the value at this view's key, silently
skipping candidates in which the key or index is absent, and preserving the
relative order of the surviving candidates (the stream is the `filterMap`
of subscripting over the parent stream, and the parent's pending exception
is preserved). -/
theorem c1_get_all_candidate_order (r : RootView) (name : String) (k : Key)
    (vals : List Value) (perr : Option ConfErr)
    (h : ∀ v ∈ vals, pyGetitem v k ≠ .error .typeError) :
    rootGetAll r = ⟨r.overlay :: r.sources, none⟩ ∧
    subAll name k vals perr =
      ⟨vals.filterMap (fun v => (pyGetitem v k).toOption), perr⟩ := by
  refine ⟨rfl, ?_⟩
  induction vals with
  | nil => simp [subAll]
  | cons v rest ih =>
    have hv : pyGetitem v k ≠ .error .typeError := h v (by simp)
    have ih' := ih (fun w hw => h w (by simp [hw]))
    match hg : pyGetitem v k with
    | .ok x => simp [subAll, hg, ih', Except.toOption]
    | .error .indexError => simp [subAll, hg, ih', Except.toOption]
    | .error .keyError => simp [subAll, hg, ih', Except.toOption]
    | .error .typeError => exact absurd hg hv

/-- Closed witness for `c1_get_all_candidate_order`: two dict sources, one
holding the key with value `1`, one missing it; the subview stream is
exactly `[1]`. -/
theorem c1_get_all_candidate_order_witness :
    rootGetAll ⟨.dict [], [.int 7]⟩ = ⟨[Value.dict [], Value.int 7], none⟩ ∧
    subAll "root" (.str "a")
        [Value.dict [(.str "a", .int 1)], Value.dict []] none =
      ⟨[Value.int 1], none⟩ := by
  have h := c1_get_all_candidate_order ⟨.dict [], [.int 7]⟩ "root" (.str "a")
    [Value.dict [(.str "a", .int 1)], Value.dict []] none
    (by
      intro v hv
      simp at hv
      rcases hv with h1 | h1 <;> subst h1 <;> simp [pyGetitem, assocGet])
  simpa [pyGetitem, assocGet, Except.toOption] using h

/-! ### C3: absent key skips, non-indexable candidate raises -/

/-- C3: during `Subview` resolution the three outcomes of subscripting a
parent candidate are kept apart: a `KeyError` (key missing in a mapping) or
`IndexError` (index out of range in a sequence) silently drops that
candidate and resolution continues with the remaining candidates; a
`TypeError` (the candidate is not subscriptable at all) aborts the stream
with a `ConfigTypeError` whose message is tagged with the parent view's
path name and the offending value's actual type; a successful subscript
contributes its value and resolution continues. -/
theorem c3_skip_vs_type_error (name : String) (k : Key) (v : Value)
    (rest : List Value) (perr : Option ConfErr) :
    ((pyGetitem v k = .error .keyError ∨ pyGetitem v k = .error .indexError) →
      subAll name k (v :: rest) perr = subAll name k rest perr) ∧
    (pyGetitem v k = .error .typeError →
      subAll name k (v :: rest) perr =
        ⟨[], some (.typeError
          (name ++ " must be a collection, not " ++ pyTypeName v))⟩) ∧
    (∀ x, pyGetitem v k = .ok x →
      subAll name k (v :: rest) perr =
        ⟨x :: (subAll name k rest perr).vals,
          (subAll name k rest perr).err⟩) := by
  refine ⟨fun h => ?_, fun h => ?_, fun x h => ?_⟩
  · rcases h with h | h <;> simp [subAll, h]
  · simp [subAll, h]
  · simp [subAll, h]

/-- Closed witness for `c3_skip_vs_type_error`: a dict missing the key is
skipped, a scalar candidate raises the tagged `ConfigTypeError`, and a dict
holding the key contributes its value. -/
theorem c3_skip_vs_type_error_witness :
    subAll "root['a']" (.str "b") [Value.dict [(.str "c", .int 1)]] none =
      subAll "root['a']" (.str "b") [] none ∧
    subAll "root['a']" (.str "b") [Value.int 5] none =
      ⟨[], some (.typeError
        ("root['a']" ++ " must be a collection, not " ++
          pyTypeName (Value.int 5)))⟩ ∧
    subAll "root['a']" (.str "b") [Value.dict [(.str "b", .int 2)]] none =
      ⟨Value.int 2 :: (subAll "root['a']" (.str "b") [] none).vals,
        (subAll "root['a']" (.str "b") [] none).err⟩ := by
  refine ⟨?_, ?_, ?_⟩
  · exact (c3_skip_vs_type_error "root['a']" (.str "b")
      (Value.dict [(.str "c", .int 1)]) [] none).1
      (Or.inl (by simp [pyGetitem, assocGet]))
  · exact (c3_skip_vs_type_error "root['a']" (.str "b")
      (Value.int 5) [] none).2.1 rfl
  · exact (c3_skip_vs_type_error "root['a']" (.str "b")
      (Value.dict [(.str "b", .int 2)]) [] none).2.2 (Value.int 2)
      (by simp [pyGetitem, assocGet])

/-! ### C2: `get` takes the first candidate -/

/-- C2: `ConfigView.get` with no argument returns the first element of
`get_all` whenever at least one candidate is yielded, and raises
`NotFoundError` naming the view's path when the candidate stream finishes
without yielding a value; with a type object it returns the first candidate
unchanged when `isinstance` holds and raises a `ConfigTypeError` naming the
expected and the actual type otherwise; with a callable conversion `f` it
returns `f(view, first-candidate)`. -/
theorem c2_get_first_candidate (r : RootView) (path : List Key) :
    ((viewGetAll r path).vals = [] → (viewGetAll r path).err = none →
      view_get r path .noneConv =
        .error (.notFound (pathName path ++ " not found"))) ∧
    (∀ v rest, (viewGetAll r path).vals = v :: rest →
      view_get r path .noneConv = .ok v ∧
      (∀ t, view_get r path (.ofType t) =
        if isinstance v t then .ok v
        else .error (.typeError (pathName path ++ " must by of type " ++
          pyTypeStr t ++ ", not " ++ pyTypeName v))) ∧
      (∀ f, view_get r path (.callable f) = f (pathName path) v)) := by
  constructor
  · intro h1 h2
    simp only [view_get, h1, h2]
  · intro v rest h
    refine ⟨?_, fun t => ?_, fun f => ?_⟩ <;> simp only [view_get, h]

/-- Closed witness for `c2_get_first_candidate`: an empty configuration
raises `NotFoundError`; an overlay value is returned as the first
candidate, type-checked against `str` (mismatch) and fed to a callable. -/
theorem c2_get_first_candidate_witness :
    view_get ⟨.dict [], []⟩ [.str "a"] .noneConv =
      .error (.notFound "root['a'] not found") ∧
    view_get ⟨.dict [(.str "a", .int 3)], []⟩ [.str "a"] .noneConv =
      .ok (.int 3) ∧
    view_get ⟨.dict [(.str "a", .int 3)], []⟩ [.str "a"] (.ofType .str) =
      .error (.typeError
        "root['a'] must by of type <class 'str'>, not <class 'int'>") ∧
    view_get ⟨.dict [(.str "a", .int 3)], []⟩ [.str "a"]
        (.callable fun n _ => .ok (.str n)) = .ok (.str "root['a']") := by
  refine ⟨?_, ?_, ?_, ?_⟩
  · exact (c2_get_first_candidate ⟨.dict [], []⟩ [.str "a"]).1 rfl rfl
  · exact ((c2_get_first_candidate ⟨.dict [(.str "a", .int 3)], []⟩
      [.str "a"]).2 (.int 3) [] rfl).1
  · exact ((c2_get_first_candidate ⟨.dict [(.str "a", .int 3)], []⟩
      [.str "a"]).2 (.int 3) [] rfl).2.1 .str
  · exact ((c2_get_first_candidate ⟨.dict [(.str "a", .int 3)], []⟩
      [.str "a"]).2 (.int 3) [] rfl).2.2 (fun n _ => .ok (.str n))

/-! ### Lemmas about writes through the overlay -/

/-- Reading back a key that was just assigned in a dict finds the assigned
value. -/
theorem assocGet_assocSet (xs : List (Key × Value)) (k : Key) (x : Value) :
    assocGet (assocSet xs k x) k = some x := by
  induction xs with
  | nil => simp [assocSet, assocGet]
  | cons p rest ih =>
    obtain ⟨k', v'⟩ := p
    by_cases hk : k' = k
    · simp [assocSet, assocGet, hk]
    · simp [assocSet, assocGet, hk, ih]

/-- If `collection[key] = x` succeeds, then `collection[key]` afterwards
returns `x` (for dicts by lookup-after-replace, for lists because the
normalized index is unchanged by `set`). -/
theorem pySetitem_getitem {o o' : Value} {k : Key} {x : Value}
    (h : pySetitem o k x = .ok o') : pyGetitem o' k = .ok x := by
  match o, k with
  | .dict xs, k =>
    simp only [pySetitem, Except.ok.injEq] at h
    subst h
    simp [pyGetitem, assocGet_assocSet]
  | .list xs, .int n =>
    simp only [pySetitem] at h
    set i : Int := if n < 0 then n + (xs.length : Int) else n with hi
    by_cases hc : 0 ≤ i ∧ i < (xs.length : Int)
    · rw [if_pos hc] at h
      injection h with h'
      subst h'
      simp only [pyGetitem, pyIndex, List.length_set]
      rw [← hi]
      have hj : i.toNat < xs.length := by omega
      rw [List.get?_eq_getElem?, List.getElem?_set_eq_of_lt x hj]
      simp [hc.1]
    · rw [if_neg hc] at h
      exact absurd h (by simp)
  | .list xs, .str s => exact absurd h (by simp [pySetitem])
  | .str s, k => exact absurd h (by simp [pySetitem])
  | .null, k => exact absurd h (by simp [pySetitem])
  | .bool b, k => exact absurd h (by simp [pySetitem])
  | .int m, k => exact absurd h (by simp [pySetitem])

/-- After a successful write of `x` at key `k` below `path`, the written
value is the first candidate of `get_all` at `path ++ [k]`, whatever the
other candidates, the view name and the pending parent exception are. -/
theorem ovSet_first (path : List Key) :
    ∀ (o o' : Value) (k : Key) (x : Value), ovSet o path k x = .ok o' →
    ∀ (rest : List Value) (name : String) (perr : Option ConfErr),
      (getAllFrom ⟨o' :: rest, perr⟩ name (path ++ [k])).vals.head? =
        some x := by
  induction path with
  | nil =>
    intro o o' k x h rest name perr
    have hg : pyGetitem o' k = .ok x := pySetitem_getitem h
    simp [getAllFrom, subAll, hg]
  | cons k0 ks ih =>
    intro o o' k x h rest name perr
    rw [ovSet] at h
    cases hn : pyNotIn k0 o with
    | error e => rw [hn] at h; exact absurd h (by simp)
    | ok notin =>
      rw [hn] at h
      dsimp only at h
      cases hcur : (if notin = true then pySetitem o k0 (Value.dict [])
          else Except.ok o) with
      | error e => rw [hcur] at h; exact absurd h (by simp)
      | ok cur' =>
        rw [hcur] at h
        dsimp only at h
        cases hch : pyGetitem cur' k0 with
        | error e => rw [hch] at h; exact absurd h (by simp)
        | ok child =>
          rw [hch] at h
          dsimp only at h
          cases hrec : ovSet child ks k x with
          | error e => rw [hrec] at h; exact absurd h (by simp)
          | ok child' =>
            rw [hrec] at h
            dsimp only at h
            have hread : pyGetitem o' k0 = .ok child' := pySetitem_getitem h
            have hstep : getAllFrom ⟨o' :: rest, perr⟩ name
                ((k0 :: ks) ++ [k]) =
                getAllFrom (subAll name k0 (o' :: rest) perr)
                  (name ++ "[" ++ keyRepr k0 ++ "]") (ks ++ [k]) := rfl
            rw [hstep]
            have hsub : subAll name k0 (o' :: rest) perr =
                ⟨child' :: (subAll name k0 rest perr).vals,
                  (subAll name k0 rest perr).err⟩ := by
              simp [subAll, hread]
            rw [hsub]
            exact ih child child' k x hrec (subAll name k0 rest perr).vals
              (name ++ "[" ++ keyRepr k0 ++ "]") (subAll name k0 rest perr).err

/-- Writing into a previously empty overlay always succeeds and produces the
chain of auto-created singleton dicts: every missing intermediate key is
created on demand. -/
theorem ovSet_fresh (path : List Key) (k : Key) (x : Value) :
    ovSet (Value.dict []) path k x = .ok (nestOverlay path k x) := by
  induction path with
  | nil => simp [ovSet, pySetitem, assocSet, nestOverlay]
  | cons k0 ks ih =>
    simp [ovSet, pyNotIn, assocGet, pySetitem, assocSet, pyGetitem, ih,
      nestOverlay]

/-! ### C4: write-then-read through a view -/

/-- C4: whenever the write `v[k] = x` succeeds (producing the new overlay
`o'`), reading `v[k].get()` returns `x`, whatever the configuration
sources and the overlay's prior contents are — the overlay candidate is
always first; moreover the write lands in the overlay node reachable by
the view's path, auto-creating intermediate mapping nodes for every
missing key: from an empty overlay, any write succeeds and produces the
chain of auto-created singleton dicts. -/
theorem c4_write_then_read (o o' : Value) (s : List Value) (path : List Key)
    (k : Key) (x : Value) (h : ovSet o path k x = .ok o') :
    view_get ⟨o', s⟩ (path ++ [k]) .noneConv = .ok x ∧
    ∀ (p : List Key) (k' : Key) (y : Value),
      ovSet (Value.dict []) p k' y = .ok (nestOverlay p k' y) := by
  refine ⟨?_, fun p k' y => ovSet_fresh p k' y⟩
  have hv : (viewGetAll ⟨o', s⟩ (path ++ [k])).vals.head? = some x :=
    ovSet_first path o o' k x h s "root" none
  cases hvals : (viewGetAll ⟨o', s⟩ (path ++ [k])).vals with
  | nil => rw [hvals] at hv; simp at hv
  | cons v t =>
    rw [hvals] at hv
    simp only [List.head?_cons, Option.some.injEq] at hv
    subst hv
    simp only [view_get, hvals]

/-- Closed witness for `c4_write_then_read`: writing `5` at
`root['a']['b']` into an empty overlay and reading it back returns `5`,
shadowing a source that maps the same path to `9`. -/
theorem c4_write_then_read_witness :
    view_get ⟨.dict [(.str "a", .dict [(.str "b", .int 5)])],
        [.dict [(.str "a", .dict [(.str "b", .int 9)])]]⟩
      [.str "a", .str "b"] .noneConv = .ok (.int 5) ∧
    ∀ (p : List Key) (k' : Key) (y : Value),
      ovSet (Value.dict []) p k' y = .ok (nestOverlay p k' y) :=
  c4_write_then_read (.dict []) _ _ [.str "a"] (.str "b") (.int 5) rfl

/-! ### C5: reads are pure and observe the latest overlay -/

/-- C5: `get_all`, `get` and `keys` are deterministic functions of the
overlay contents and the source list at call time — two roots with equal
overlay and equal sources resolve identically (the reads are pure
functions of the state, mutating nothing) — and a read issued against the
overlay produced by a successful write observes the written value as the
first candidate (read-your-writes, no caching). -/
theorem c5_reads_pure (r1 r2 : RootView) (path : List Key)
    (ho : r1.overlay = r2.overlay) (hs : r1.sources = r2.sources) :
    viewGetAll r1 path = viewGetAll r2 path ∧
    (∀ conv : Conversion, view_get r1 path conv = view_get r2 path conv) ∧
    view_keys r1 path = view_keys r2 path ∧
    (∀ (k : Key) (x o' : Value), ovSet r1.overlay path k x = .ok o' →
      (viewGetAll ⟨o', r1.sources⟩ (path ++ [k])).vals.head? = some x) := by
  obtain ⟨o1, s1⟩ := r1
  obtain ⟨o2, s2⟩ := r2
  dsimp only at ho hs
  subst ho
  subst hs
  exact ⟨rfl, fun _ => rfl, rfl,
    fun k x o' h => ovSet_first path o1 o' k x h s1 "root" none⟩

/-- Closed witness for `c5_reads_pure`: equal states resolve equally, and
after writing `2` at `root['a']` the read at that path sees `2`. -/
theorem c5_reads_pure_witness :
    viewGetAll ⟨.dict [], [.int 1]⟩ [.str "a"] =
      viewGetAll ⟨.dict [], [.int 1]⟩ [.str "a"] ∧
    (viewGetAll ⟨.dict [(.str "a", .int 2)], []⟩
      ([] ++ [Key.str "a"])).vals.head? = some (.int 2) :=
  ⟨(c5_reads_pure ⟨.dict [], [.int 1]⟩ ⟨.dict [], [.int 1]⟩ [.str "a"]
      rfl rfl).1,
    (c5_reads_pure ⟨.dict [], []⟩ ⟨.dict [], []⟩ [] rfl rfl).2.2.2
      (.str "a") (.int 2) (.dict [(.str "a", .int 2)]) rfl⟩

/-! ### C10: a nested write shadows the parent mapping but not siblings -/

/-- C10: after the nested write `root[k1][k2] = x` into an empty overlay,
reading the parent mapping `root[k1].get()` returns the overlay's partial
mapping `{k2: x}` containing only the written key, shadowing every
source's complete mapping at `k1`; yet a sibling leaf `root[k1][k3]` with
`k3 ≠ k2` resolves exactly as it would without the write, because the
overlay's partial mapping lacks `k3` and is silently skipped. -/
theorem c10_partial_shadow (k1 k2 k3 : Key) (x : Value) (s : List Value)
    (hk : k3 ≠ k2) :
    ovSet (Value.dict []) [k1] k2 x =
      .ok (Value.dict [(k1, Value.dict [(k2, x)])]) ∧
    view_get ⟨Value.dict [(k1, Value.dict [(k2, x)])], s⟩ [k1] .noneConv =
      .ok (Value.dict [(k2, x)]) ∧
    viewGetAll ⟨Value.dict [(k1, Value.dict [(k2, x)])], s⟩ [k1, k3] =
      viewGetAll ⟨Value.dict [], s⟩ [k1, k3] := by
  have hd : pyGetitem (Value.dict [(k1, Value.dict [(k2, x)])]) k1 =
      .ok (.dict [(k2, x)]) := by simp [pyGetitem, assocGet]
  have hmiss : pyGetitem (Value.dict [(k2, x)]) k3 = .error .keyError := by
    simp [pyGetitem, assocGet, Ne.symm hk]
  have hempty : pyGetitem (Value.dict []) k1 = .error .keyError := by
    simp [pyGetitem, assocGet]
  refine ⟨ovSet_fresh [k1] k2 x, ?_, ?_⟩
  · have hv : viewGetAll ⟨Value.dict [(k1, Value.dict [(k2, x)])], s⟩ [k1] =
        ⟨Value.dict [(k2, x)] :: (subAll "root" k1 s none).vals,
          (subAll "root" k1 s none).err⟩ := by
      simp [viewGetAll, getAllFrom, rootGetAll, subAll, hd]
    simp only [view_get, hv]
  · simp [viewGetAll, getAllFrom, rootGetAll, subAll, hd, hmiss, hempty]

/-- Closed witness for `c10_partial_shadow`: after `root['a']['b'] = 1`,
`root['a'].get()` is the partial dict `{'b': 1}` although the source maps
`'a'` to a complete dict, while `root['a']['c']` still resolves from the
source. -/
theorem c10_partial_shadow_witness :
    ovSet (Value.dict []) [.str "a"] (.str "b") (.int 1) =
      .ok (Value.dict [(.str "a", Value.dict [(.str "b", .int 1)])]) ∧
    view_get ⟨Value.dict [(.str "a", Value.dict [(.str "b", .int 1)])],
        [Value.dict [(.str "a",
          Value.dict [(.str "b", .int 0), (.str "c", .int 7)])]]⟩
      [.str "a"] .noneConv = .ok (Value.dict [(.str "b", .int 1)]) ∧
    viewGetAll ⟨Value.dict [(.str "a", Value.dict [(.str "b", .int 1)])],
        [Value.dict [(.str "a",
          Value.dict [(.str "b", .int 0), (.str "c", .int 7)])]]⟩
      [.str "a", .str "c"] =
    viewGetAll ⟨Value.dict [],
        [Value.dict [(.str "a",
          Value.dict [(.str "b", .int 0), (.str "c", .int 7)])]]⟩
      [.str "a", .str "c"] :=
  c10_partial_shadow (.str "a") (.str "b") (.str "c") (.int 1)
    [Value.dict [(.str "a",
      Value.dict [(.str "b", .int 0), (.str "c", .int 7)])]]
    (by decide)

/-! ### C6: `keys` unions the keys of all dict candidates -/

theorem setUpdate_nil (acc : List Key) : setUpdate acc [] = acc := rfl

theorem setUpdate_cons (acc : List Key) (a : Key) (as : List Key) :
    setUpdate acc (a :: as) =
      setUpdate (if a ∈ acc then acc else acc ++ [a]) as := rfl

/-- Membership in the accumulated key set is membership in either input. -/
theorem mem_setUpdate (k : Key) (ks : List Key) :
    ∀ acc, k ∈ setUpdate acc ks ↔ k ∈ acc ∨ k ∈ ks := by
  induction ks with
  | nil => intro acc; simp [setUpdate]
  | cons a as ih =>
    intro acc
    rw [setUpdate_cons, ih]
    by_cases ha : a ∈ acc
    · rw [if_pos ha]
      simp only [List.mem_cons]
      constructor
      · rintro (h | h)
        · exact Or.inl h
        · exact Or.inr (Or.inr h)
      · rintro (h | h | h)
        · exact Or.inl h
        · subst h; exact Or.inl ha
        · exact Or.inr h
    · rw [if_neg ha]
      simp only [List.mem_append, List.mem_singleton, List.mem_cons]
      tauto

/-- When every candidate is a dict and the stream ends cleanly, the `keys`
loop succeeds and collects exactly the accumulated keys plus the keys of
every candidate. -/
theorem keysAux_ok (name : String) (vals : List Value)
    (h : ∀ v ∈ vals, v.isDict = true) :
    ∀ acc, ∃ l, keysAux name vals none acc = .ok l ∧
      ∀ k, k ∈ l ↔ k ∈ acc ∨
        ∃ xs, Value.dict xs ∈ vals ∧ k ∈ xs.map Prod.fst := by
  induction vals with
  | nil => intro acc; exact ⟨acc, rfl, by simp⟩
  | cons v rest ih =>
    intro acc
    have hv := h v (by simp)
    obtain ⟨xs, rfl⟩ : ∃ xs, v = Value.dict xs := by
      cases v <;> simp [Value.isDict] at hv ⊢
    obtain ⟨l, hl, hmem⟩ := ih (fun w hw => h w (by simp [hw]))
      (setUpdate acc (xs.map Prod.fst))
    refine ⟨l, by simpa [keysAux] using hl, fun k => ?_⟩
    rw [hmem k, mem_setUpdate]
    simp only [List.mem_cons]
    constructor
    · rintro ((hk | hk) | ⟨ys, hys, hk⟩)
      · exact Or.inl hk
      · exact Or.inr ⟨xs, Or.inl rfl, hk⟩
      · exact Or.inr ⟨ys, Or.inr hys, hk⟩
    · rintro (hk | ⟨ys, (hys | hys), hk⟩)
      · exact Or.inl (Or.inl hk)
      · obtain rfl : ys = xs := by injection hys
        exact Or.inl (Or.inr hk)
      · exact Or.inr ⟨ys, hys, hk⟩

/-- A non-dict at the head of the `keys` loop raises at once. -/
theorem keysAux_cons_error (name : String) (v : Value)
    (hv : v.isDict = false) (rest : List Value) (perr : Option ConfErr)
    (acc : List Key) :
    keysAux name (v :: rest) perr acc =
      .error (.typeError (name ++ " must be a dict, not " ++ pyTypeName v)) := by
  cases v <;> simp_all [keysAux, Value.isDict]

/-- Whenever some candidate is not a dict, the `keys` loop fails with a
`ConfigTypeError` naming the view and the (first) offending candidate. -/
theorem keysAux_error (name : String) (vals : List Value) :
    ∀ (perr : Option ConfErr) (acc : List Key),
      (∃ v ∈ vals, v.isDict = false) →
      ∃ w, w ∈ vals ∧ w.isDict = false ∧
        keysAux name vals perr acc = .error (.typeError
          (name ++ " must be a dict, not " ++ pyTypeName w)) := by
  induction vals with
  | nil =>
    rintro perr acc ⟨v, hv, _⟩
    simp at hv
  | cons v rest ih =>
    rintro perr acc ⟨w, hw, hwt⟩
    by_cases hvd : v.isDict = true
    · obtain ⟨xs, rfl⟩ : ∃ xs, v = Value.dict xs := by
        cases v <;> simp [Value.isDict] at hvd ⊢
      rcases List.mem_cons.mp hw with rfl | hw'
      · simp [Value.isDict] at hwt
      · obtain ⟨w', hw'', hwt', heq⟩ :=
          ih perr (setUpdate acc (xs.map Prod.fst)) ⟨w, hw', hwt⟩
        exact ⟨w', List.mem_cons_of_mem _ hw'', hwt',
          by simpa [keysAux] using heq⟩
    · have hvf : v.isDict = false := by simpa using hvd
      exact ⟨v, by simp, hvf, keysAux_cons_error name v hvf rest perr acc⟩

/-- C6: `ConfigView.keys` returns the union of the key sets of all
mapping-shaped candidates yielded by `get_all` (a key appears in the
result iff some dict candidate contains it), and raises a
`ConfigTypeError` naming the view's path whenever some candidate present
at this path is not mapping-shaped. -/
theorem c6_keys_union (r : RootView) (path : List Key) :
    (((viewGetAll r path).err = none ∧
        ∀ v ∈ (viewGetAll r path).vals, v.isDict = true) →
      ∃ l, view_keys r path = .ok l ∧
        ∀ k, k ∈ l ↔ ∃ xs, Value.dict xs ∈ (viewGetAll r path).vals ∧
          k ∈ xs.map Prod.fst) ∧
    ((∃ v ∈ (viewGetAll r path).vals, v.isDict = false) →
      ∃ w, w ∈ (viewGetAll r path).vals ∧ w.isDict = false ∧
        view_keys r path = .error (.typeError
          (pathName path ++ " must be a dict, not " ++ pyTypeName w))) := by
  constructor
  · rintro ⟨herr, hall⟩
    obtain ⟨l, hl, hmem⟩ := keysAux_ok (pathName path) _ hall []
    refine ⟨l, ?_, fun k => by simpa using hmem k⟩
    show keysAux (pathName path) (viewGetAll r path).vals
      (viewGetAll r path).err [] = Except.ok l
    rw [herr]
    exact hl
  · intro hex
    obtain ⟨w, hw, hwt, heq⟩ :=
      keysAux_error (pathName path) (viewGetAll r path).vals
        (viewGetAll r path).err [] hex
    exact ⟨w, hw, hwt, heq⟩

/-- Closed witness for `c6_keys_union`: overlay `{'a': 1}` and source
`{'b': 2}` give keys containing exactly `a` and `b`; a scalar source at
the root makes `keys` raise. -/
theorem c6_keys_union_witness :
    (∃ l, view_keys ⟨.dict [(.str "a", .int 1)],
        [.dict [(.str "b", .int 2)]]⟩ [] = .ok l ∧
      ∀ k, k ∈ l ↔ ∃ xs, Value.dict xs ∈
        (viewGetAll ⟨.dict [(.str "a", .int 1)],
          [.dict [(.str "b", .int 2)]]⟩ []).vals ∧ k ∈ xs.map Prod.fst) ∧
    (∃ w, w ∈ (viewGetAll ⟨.dict [], [.int 5]⟩ []).vals ∧
      w.isDict = false ∧
      view_keys ⟨.dict [], [.int 5]⟩ [] = .error (.typeError
        (pathName [] ++ " must be a dict, not " ++ pyTypeName w))) :=
  ⟨(c6_keys_union ⟨.dict [(.str "a", .int 1)],
      [.dict [(.str "b", .int 2)]]⟩ []).1 ⟨rfl, by decide⟩,
    (c6_keys_union ⟨.dict [], [.int 5]⟩ []).2
      ⟨.int 5, by simp [viewGetAll, getAllFrom, rootGetAll], rfl⟩⟩

/-! ### C7: read failures surface as `ConfigReadError` -/

/-- `ConfigReadError`: the distinguished exception for a configuration file
that could not be read; it stores the failing filename, the underlying
cause, and the formatted message built by its constructor. -/
structure ConfigReadError where
  filename : String
  reason : Option String
  message : String
  deriving DecidableEq, Repr

/-- The `ConfigReadError.__init__` logic: record filename and reason and
format `file {0} could not be read`, appending `: {reason}` when a reason
is given. -/
def mkConfigReadError (filename : String) (reason : Option String) :
    ConfigReadError :=
  ⟨filename, reason,
    "file " ++ filename ++ " could not be read" ++
      (match reason with
       | some r => ": " ++ r
       | none => "")⟩

/-- `Configuration._read`: read and parse each discovered file in order,
collecting the parsed trees as the sources; an `IOError` or `YAMLError`
on any file (modelled by the oracle `readFile` returning the error text)
is immediately re-raised as a `ConfigReadError` carrying that file's path
and the cause, aborting the construction — the remaining files are never
consulted and no file is silently skipped. -/
def readSources (readFile : String → Except String Value) :
    List String → Except ConfigReadError (List Value)
  | [] => .ok []
  | f :: fs =>
    match readFile f with
    | .error e => .error (mkConfigReadError f (some e))
    | .ok v =>
      match readSources readFile fs with
      | .error err => .error err
      | .ok vs => .ok (v :: vs)

/-- C7: when every discovered file reads and parses, `_read` collects all
their trees; when some file fails, `_read` raises the distinguished
`ConfigReadError` for the first failing file — carrying that file's path
and the underlying cause in its fields and message — rather than skipping
it, so construction aborts. -/
theorem c7_read_error_surfaced (readFile : String → Except String Value) :
    (∀ fs : List String, (∀ f ∈ fs, ∃ v, readFile f = .ok v) →
      ∃ vs, readSources readFile fs = .ok vs) ∧
    (∀ (fs1 : List String) (f e : String) (fs2 : List String),
      (∀ g ∈ fs1, ∃ v, readFile g = .ok v) → readFile f = .error e →
      readSources readFile (fs1 ++ f :: fs2) =
        .error (mkConfigReadError f (some e))) ∧
    (∀ f e : String,
      (mkConfigReadError f (some e)).filename = f ∧
      (mkConfigReadError f (some e)).reason = some e ∧
      (mkConfigReadError f (some e)).message =
        "file " ++ f ++ " could not be read" ++ (": " ++ e)) := by
  refine ⟨?_, ?_, fun f e => ⟨rfl, rfl, rfl⟩⟩
  · intro fs h
    induction fs with
    | nil => exact ⟨[], rfl⟩
    | cons f fs ih =>
      obtain ⟨v, hv⟩ := h f (by simp)
      obtain ⟨vs, hvs⟩ := ih (fun g hg => h g (by simp [hg]))
      exact ⟨v :: vs, by simp [readSources, hv, hvs]⟩
  · intro fs1 f e fs2
    induction fs1 with
    | nil =>
      intro _ he
      simp [readSources, he]
    | cons g gs ih =>
      intro hok he
      obtain ⟨v, hv⟩ := hok g (by simp)
      have hrec := ih (fun g' hg' => hok g' (by simp [hg'])) he
      simp [readSources, hv, hrec]

/-- Closed witness for `c7_read_error_surfaced`: with a reader that
succeeds on `"good"` and fails on `"bad"` with cause `"boom"`, the good
list parses, and the list containing `"bad"` aborts with the read error
naming `"bad"` and `"boom"`. -/
theorem c7_read_error_surfaced_witness :
    (∃ vs, readSources
        (fun s => if s = "good" then .ok .null else .error "boom")
        ["good"] = .ok vs) ∧
    readSources (fun s => if s = "good" then .ok .null else .error "boom")
        ["good", "bad", "later"] =
      .error (mkConfigReadError "bad" (some "boom")) ∧
    (mkConfigReadError "bad" (some "boom")).filename = "bad" ∧
    (mkConfigReadError "bad" (some "boom")).reason = some "boom" := by
  refine ⟨?_, ?_, ?_, ?_⟩
  · exact (c7_read_error_surfaced _).1 ["good"]
      (by
        intro f hf
        simp at hf
        subst hf
        exact ⟨.null, rfl⟩)
  · exact (c7_read_error_surfaced _).2.1 ["good"] "bad" "boom" ["later"]
      (by
        intro f hf
        simp at hf
        subst hf
        exact ⟨.null, rfl⟩)
      rfl
  · exact ((c7_read_error_surfaced
      (fun s => if s = "good" then .ok .null else .error "boom")).2.2
        "bad" "boom").1
  · exact ((c7_read_error_surfaced
      (fun s => if s = "good" then .ok .null else .error "boom")).2.2
        "bad" "boom").2.1

/-! ### C8: `as_filename` and POSIX path handling -/

/-- `path.startswith(sep)` for the POSIX separator. -/
def startsSlash (s : String) : Bool := s.data.head? == some '/'

/-- `path.startswith(sep + sep)`. -/
def startsSlash2 (s : String) : Bool := s.data.take 2 == ['/', '/']

/-- `path.startswith(sep + sep + sep)`. -/
def startsSlash3 (s : String) : Bool := s.data.take 3 == ['/', '/', '/']

/-- `path.startswith(tilde)`. -/
def startsTilde (s : String) : Bool := s.data.head? == some '~'

/-- `path.endswith(sep)`. -/
def endsSlash (s : String) : Bool := s.data.getLast? == some '/'

/-- `userhome.rstrip(sep)`: drop all trailing separators. -/
def rstripSlash (s : String) : String :=
  String.mk ((s.data.reverse.dropWhile (· == '/')).reverse)

/-- Python `path.split(sep)` for the POSIX separator, over the character
list: splitting the empty string yields one empty component, and each
separator starts a new component. -/
def splitOnSlash : List Char → List (List Char)
  | [] => [[]]
  | c :: rest =>
    match splitOnSlash rest with
    | [] => [[]]
    | cur :: others =>
      if c == '/' then [] :: cur :: others else (c :: cur) :: others

/-- `posixpath.normpath`: the number of leading separators preserved in
the result (two separators are kept as such by POSIX, three or more
collapse to one). -/
def initialSlashes (p : String) : Nat :=
  if startsSlash2 p && !startsSlash3 p then 2
  else if startsSlash p then 1
  else 0

/-- The component loop of `posixpath.normpath`: drop empty and `.`
components; `..` pops the previous component except at an absolute root
or after an unresolved leading `..`. -/
def normParts (slashes : Nat) (comps : List String) : List String :=
  comps.foldl
    (fun acc comp =>
      if comp = "" ∨ comp = "." then acc
      else if comp ≠ ".." ∨ (slashes = 0 ∧ acc = []) ∨
          acc.getLast? = some ".." then
        acc ++ [comp]
      else if acc ≠ [] then acc.dropLast
      else acc) []

/-- `posixpath.normpath`, as called by `os.path.abspath` on POSIX: split
on the separator, normalize the components, re-join, and restore the
preserved leading separators; an empty result denotes the current
directory. -/
def posixNormpath (p : String) : String :=
  if p = "" then "."
  else
    let slashes := initialSlashes p
    let joined := String.intercalate "/"
      (normParts slashes ((splitOnSlash p.data).map String.mk))
    let res :=
      if slashes = 2 then "//" ++ joined
      else if slashes = 1 then "/" ++ joined
      else joined
    if res = "" then "." else res

/-- Two-argument `posixpath.join`: an absolute second path replaces the
first, otherwise the parts are joined with a separator unless one is
already present. -/
def posixJoin (a b : String) : String :=
  if startsSlash b then b
  else if a = "" ∨ endsSlash a = true then a ++ b
  else a ++ "/" ++ b

/-- `posixpath.abspath`, parametrized by the process working directory:
join a relative path onto `cwd`, then normalize. It does **not** resolve
symbolic links (that is `realpath`, which `confit.py` never calls). -/
def posixAbspath (cwd p : String) : String :=
  if startsSlash p then posixNormpath p
  else posixNormpath (posixJoin cwd p)

/-- `posixpath.expanduser`, parametrized by the `HOME` directory: a
leading bare `~` (followed by a separator or nothing) is replaced by the
slash-stripped home directory, an empty result becoming the root; a
`~user` form consults the password database, modelled here as the
unknown-user case in which Python returns the path unchanged. -/
def posixExpanduser (home p : String) : String :=
  if startsTilde p then
    let i : Nat :=
      match (p.data.drop 1).findIdx? (· == '/') with
      | some j => j + 1
      | none => p.data.length
    if i = 1 then
      let r := rstripSlash home ++ String.mk (p.data.drop i)
      if r = "" then "/" else r
    else p
  else p

/-- `as_filename` from `confit.py`: coerce the candidate to a string (the
identity here) and return `os.path.abspath(os.path.expanduser(value))`,
parametrized by the `HOME` directory and the working directory those
`os.path` calls consult; the `view` argument of the Python signature is
not used by the body. -/
def as_filename (home cwd : String) (_view : String) (value : String) :
    String :=
  posixAbspath cwd (posixExpanduser home value)

/-- Modelled from the spec: "The final value is the resolved absolute path
with any leading home-directory marker expanded and any symbolic
indirection canonicalized" — canonicalization (`realpath`) resolves
symbolic links, modelled by a link table mapping absolute paths to their
targets, applied after the path is made absolute. -/
def as_filename_spec (links : List (String × String)) (home cwd : String)
    (_view : String) (value : String) : String :=
  let p := posixAbspath cwd (posixExpanduser home value)
  match links.lookup p with
  | some t => t
  | none => p

theorem startsSlash_ne_empty (s : String) (h : startsSlash s = true) :
    s ≠ "" := by
  intro he
  rw [he] at h
  exact absurd h (by decide)

theorem startsSlash_append_left (a b : String)
    (h : startsSlash a = true) : startsSlash (a ++ b) = true := by
  obtain ⟨la⟩ := a
  obtain ⟨lb⟩ := b
  cases la with
  | nil => exact absurd h (by decide)
  | cons c cs =>
    have hmk : (String.mk (c :: cs) ++ String.mk lb) =
        String.mk (c :: (cs ++ lb)) := rfl
    rw [hmk]
    exact h

theorem initialSlashes_pos (p : String) (h : startsSlash p = true) :
    initialSlashes p = 2 ∨ initialSlashes p = 1 := by
  unfold initialSlashes
  by_cases h2 : (startsSlash2 p && !startsSlash3 p) = true
  · rw [if_pos h2]; exact Or.inl rfl
  · rw [if_neg h2, if_pos h]; exact Or.inr rfl

/-- `normpath` keeps a path absolute. -/
theorem posixNormpath_abs (p : String) (h : startsSlash p = true) :
    startsSlash (posixNormpath p) = true := by
  have hne : p ≠ "" := startsSlash_ne_empty p h
  unfold posixNormpath
  rw [if_neg hne]
  rcases initialSlashes_pos p h with hs | hs
  · simp only [hs]
    rw [if_true]
    rw [if_neg (startsSlash_ne_empty _ (startsSlash_append_left "//" _ rfl))]
    exact startsSlash_append_left "//" _ rfl
  · simp only [hs]
    rw [if_neg (by decide : ¬((1 : Nat) = 2)), if_true]
    rw [if_neg (startsSlash_ne_empty _ (startsSlash_append_left "/" _ rfl))]
    exact startsSlash_append_left "/" _ rfl

/-- `abspath` against an absolute working directory is absolute. -/
theorem posixAbspath_abs (cwd p : String) (h : startsSlash cwd = true) :
    startsSlash (posixAbspath cwd p) = true := by
  unfold posixAbspath
  by_cases hp : startsSlash p = true
  · rw [if_pos hp]
    exact posixNormpath_abs p hp
  · rw [if_neg hp]
    apply posixNormpath_abs
    unfold posixJoin
    rw [if_neg hp]
    by_cases hce : cwd = "" ∨ endsSlash cwd = true
    · rw [if_pos hce]
      rcases hce with hc | _
      · exact absurd h (by rw [hc]; decide)
      · exact startsSlash_append_left cwd p h
    · rw [if_neg hce]
      exact startsSlash_append_left _ _ (startsSlash_append_left cwd "/" h)

theorem append_mk_cons_ne_empty (a : String) (c : Char) (l : List Char) :
    a ++ String.mk (c :: l) ≠ "" := by
  obtain ⟨la⟩ := a
  intro he
  have hdata : la ++ (c :: l) = ([] : List Char) := congrArg String.data he
  simp at hdata

/-- `expanduser` on a path of the form `~/rest` substitutes the
slash-stripped home directory for the tilde. -/
theorem posixExpanduser_tilde (home : String) (rest : List Char) :
    posixExpanduser home (String.mk ('~' :: '/' :: rest)) =
      rstripSlash home ++ String.mk ('/' :: rest) := by
  unfold posixExpanduser
  have ht : startsTilde (String.mk ('~' :: '/' :: rest)) = true := rfl
  rw [if_pos ht]
  show (let i : Nat :=
      match (('/' :: rest).findIdx? (· == '/')) with
      | some j => j + 1
      | none => ('~' :: '/' :: rest).length
    if i = 1 then
      let r := rstripSlash home ++ String.mk (('~' :: '/' :: rest).drop i)
      if r = "" then "/" else r
    else String.mk ('~' :: '/' :: rest)) =
    rstripSlash home ++ String.mk ('/' :: rest)
  have hfind : ('/' :: rest).findIdx? (· == '/') = some 0 := rfl
  rw [hfind]
  show (if (0 + 1 : Nat) = 1 then
      let r := rstripSlash home ++ String.mk (('~' :: '/' :: rest).drop (0 + 1))
      if r = "" then "/" else r
    else String.mk ('~' :: '/' :: rest)) =
    rstripSlash home ++ String.mk ('/' :: rest)
  rw [if_pos rfl]
  show (if (rstripSlash home ++ String.mk ('/' :: rest)) = "" then "/"
    else rstripSlash home ++ String.mk ('/' :: rest)) =
    rstripSlash home ++ String.mk ('/' :: rest)
  rw [if_neg (append_mk_cons_ne_empty _ _ _)]

/-- C8 counterexample: `as_filename` does not canonicalize symbolic
links. With working directory `/base` and a symbolic link
`/base/link → /other/target`, the code returns `/base/link` while the
claimed canonical real path is `/other/target`. -/
theorem c8_filename_counterexample :
    as_filename "/home/u" "/base" "root" "link" = "/base/link" ∧
    as_filename_spec [("/base/link", "/other/target")] "/home/u" "/base"
      "root" "link" = "/other/target" ∧
    ("/base/link" : String) ≠ "/other/target" := by
  refine ⟨by decide, by decide, by decide⟩

/-- C8 (amended): `as_filename` returns
`os.path.abspath(os.path.expanduser(value))` — an absolute normalized
path (it begins with the separator whenever the working directory is
absolute) with a leading `~/` expanded to the slash-stripped home
directory; symbolic-link indirection is **not** canonicalized, as
`c8_filename_counterexample` shows. -/
theorem c8_filename_amended (home cwd view value : String)
    (h2 : startsSlash cwd = true) :
    as_filename home cwd view value =
      posixAbspath cwd (posixExpanduser home value) ∧
    startsSlash (as_filename home cwd view value) = true ∧
    ∀ rest : List Char,
      posixExpanduser home (String.mk ('~' :: '/' :: rest)) =
        rstripSlash home ++ String.mk ('/' :: rest) :=
  ⟨rfl, posixAbspath_abs cwd _ h2,
    fun rest => posixExpanduser_tilde home rest⟩

/-- Closed witness for `c8_filename_amended` at `HOME = "/h"`,
`cwd = "/w"`. -/
theorem c8_filename_amended_witness :
    as_filename "/h" "/w" "root" "x" =
      posixAbspath "/w" (posixExpanduser "/h" "x") ∧
    startsSlash (as_filename "/h" "/w" "root" "x") = true ∧
    posixExpanduser "/h" (String.mk ['~', '/', 'x']) =
      rstripSlash "/h" ++ String.mk ['/', 'x'] :=
  ⟨(c8_filename_amended "/h" "/w" "root" "x" (by decide)).1,
    (c8_filename_amended "/h" "/w" "root" "x" (by decide)).2.1,
    (c8_filename_amended "/h" "/w" "root" "x" (by decide)).2.2 ['x']⟩

/-! ### C9: `as_choice` membership validation -/

/-- A value found by dict lookup is structurally smaller than the dict. -/
theorem assocGet_sizeOf_lt {xs : List (Key × Value)} {k : Key} {w : Value}
    (h : assocGet xs k = some w) : sizeOf w < sizeOf xs := by
  induction xs with
  | nil => simp [assocGet] at h
  | cons p rest ih =>
    obtain ⟨k', v'⟩ := p
    simp only [assocGet] at h
    split at h
    · injection h with h'
      subst h'
      simp
      omega
    · have hlt := ih h
      simp
      omega

mutual

/-- Python `==` between configuration values, as used by the membership
test `value not in choices`: scalars compare by value (a boolean equals
the integer 0 or 1), strings and `None` compare to their own kind, lists
compare pointwise, and dicts compare as maps (each entry of one side is
looked up on the other, ignoring entry order). -/
def pyEq : Value → Value → Bool
  | .null, .null => true
  | .bool a, .bool b => a == b
  | .bool a, .int n => (if a then (1 : Int) else 0) == n
  | .int n, .bool b => n == (if b then (1 : Int) else 0)
  | .int a, .int b => a == b
  | .str a, .str b => a == b
  | .list a, .list b => pyEqList a b
  | .dict a, .dict b =>
    pyEqEntries a b && (b.map Prod.fst).all fun k => !(assocGet a k).isNone
  | _, _ => false
termination_by a b => sizeOf a + sizeOf b
decreasing_by
  all_goals first
    | omega
    | (simp; omega)

/-- Pointwise Python `==` on lists. -/
def pyEqList : List Value → List Value → Bool
  | [], [] => true
  | a :: as, b :: bs => pyEq a b && pyEqList as bs
  | _, _ => false
termination_by a b => sizeOf a + sizeOf b
decreasing_by
  all_goals first
    | omega
    | (simp; omega)

/-- Every entry of the first dict is present with an equal value in the
second. -/
def pyEqEntries : List (Key × Value) → List (Key × Value) → Bool
  | [], _ => true
  | (k, v) :: rest, other =>
    (match _h : assocGet other k with
     | some w => pyEq v w
     | none => false) && pyEqEntries rest other
termination_by a b => sizeOf a + sizeOf b
decreasing_by
  all_goals simp
  all_goals (have hlt := assocGet_sizeOf_lt (by assumption); omega)

end

mutual

/-- Python `repr` for the modelled values, as interpolated into the
`ConfigValueError` message of `as_choice`. -/
def pyRepr : Value → String
  | .null => "None"
  | .bool b => if b then "True" else "False"
  | .int n => toString n
  | .str s => "\x27" ++ s ++ "\x27"
  | .list xs => "[" ++ pyReprItems xs ++ "]"
  | .dict xs => "\x7b" ++ pyReprPairs xs ++ "\x7d"

/-- Comma-joined `repr` of list elements. -/
def pyReprItems : List Value → String
  | [] => ""
  | [v] => pyRepr v
  | v :: rest => pyRepr v ++ ", " ++ pyReprItems rest

/-- Comma-joined `repr` of dict entries. -/
def pyReprPairs : List (Key × Value) → String
  | [] => ""
  | [(k, v)] => keyRepr k ++ ": " ++ pyRepr v
  | (k, v) :: rest => keyRepr k ++ ": " ++ pyRepr v ++ ", " ++ pyReprPairs rest

end

theorem pyEq_int_int (a b : Int) : pyEq (.int a) (.int b) = (a == b) := by
  rw [pyEq.eq_def]

/-- The collections `as_choice` is used with: a list of allowed values or
a dict whose keys are the allowed values. -/
inductive ChoiceColl where
  | list (xs : List Value)
  | dict (xs : List (Key × Value))

/-- A subscript key as a plain Python value. -/
def keyToValue : Key → Value
  | .str s => .str s
  | .int n => .int n

/-- Python `value in choices`: element membership (by `==`) for a list;
for a dict, key membership — which first **hashes** the candidate, so an
unhashable candidate (a list or dict value) raises a plain `TypeError`
before any comparison. -/
def pyInChoices (x : Value) : ChoiceColl → Except PyErr Bool
  | .list xs => .ok (xs.any fun e => pyEq x e)
  | .dict xs =>
    match x with
    | .list _ => .error .typeError
    | .dict _ => .error .typeError
    | _ => .ok (xs.any fun kv => pyEq x (keyToValue kv.1))

/-- Python `list(choices)`: the elements of a list, the keys of a dict in
insertion order. -/
def choiceList : ChoiceColl → List Value
  | .list xs => xs
  | .dict xs => xs.map fun kv => keyToValue kv.1

/-- `as_choice` from `confit.py` (the closure it returns): evaluate
`value not in choices` — a plain Python `TypeError` raised by that
membership test (unhashable candidate against a dict) escapes uncaught,
modelled by the outer `Except PyErr` layer. A non-member raises
`ConfigValueError` with the message `'{0} must be one of {1}, not {2}'`
interpolating the view name, `repr(value)` and `repr(list(choices))` in
that order; otherwise the raw value is returned — there is no
replacement lookup for dict-backed collections. -/
def as_choice (choices : ChoiceColl) (viewName : String) (value : Value) :
    Except PyErr (Except ConfErr Value) :=
  match pyInChoices value choices with
  | .error e => .error e
  | .ok true => .ok (.ok value)
  | .ok false =>
    .ok (.error (.valueError (viewName ++ " must be one of " ++
      pyRepr value ++ ", not " ++ pyRepr (.list (choiceList choices)))))

/-- Modelled from the spec: "if backed by a mapping from allowed-value to
replacement, the replacement is returned instead of the raw candidate" —
identical to `as_choice` except that a dict-backed collection returns the
stored replacement for the matching key. Used only as the comparison
target showing `as_choice` does not implement the replacement. -/
def as_choice_spec (choices : ChoiceColl) (viewName : String)
    (value : Value) : Except PyErr (Except ConfErr Value) :=
  match pyInChoices value choices with
  | .error e => .error e
  | .ok true =>
    match choices with
    | .dict xs =>
      match xs.find? fun kv => pyEq value (keyToValue kv.1) with
      | some kv => .ok (.ok kv.2)
      | none => .ok (.ok value)
    | .list _ => .ok (.ok value)
  | .ok false =>
    .ok (.error (.valueError (viewName ++ " must be one of " ++
      pyRepr value ++ ", not " ++ pyRepr (.list (choiceList choices)))))

/-- C9 counterexample: for the mapping collection `{2: "two", 4: "four"}`
and member candidate `2`, `as_choice` returns the raw candidate `2`,
not the replacement `"two"` the claim promises (which `as_choice_spec`,
modelled from the spec, returns). -/
theorem c9_choice_counterexample :
    as_choice (.dict [(.int 2, .str "two"), (.int 4, .str "four")])
      "root" (.int 2) = .ok (.ok (.int 2)) ∧
    as_choice_spec (.dict [(.int 2, .str "two"), (.int 4, .str "four")])
      "root" (.int 2) = .ok (.ok (.str "two")) ∧
    (Except.ok (Except.ok (Value.int 2)) :
        Except PyErr (Except ConfErr Value)) ≠ .ok (.ok (.str "two")) := by
  refine ⟨?_, ?_, by simp⟩
  · simp [as_choice, pyInChoices, keyToValue, pyEq_int_int]
  · simp [as_choice_spec, pyInChoices, keyToValue, pyEq_int_int, List.find?]

/-- C9 (amended): for every choice collection `C` and candidate `x`:
when the membership test succeeds and `x` is not a member of `C` (keys,
for a mapping), `as_choice` raises a `ConfigValueError` whose message
interpolates the view name, the candidate and the allowed collection;
when `x` is a member, the raw candidate `x` is returned unchanged — even
when `C` is a mapping, no replacement is substituted; and when the
membership test itself raises (an unhashable candidate against a
mapping), that plain Python `TypeError` propagates uncaught instead of
any config error. -/
theorem c9_choice_amended (choices : ChoiceColl) (viewName : String)
    (value : Value) :
    (pyInChoices value choices = .ok true →
      as_choice choices viewName value = .ok (.ok value)) ∧
    (pyInChoices value choices = .ok false →
      as_choice choices viewName value = .ok (.error (.valueError
        (viewName ++ " must be one of " ++ pyRepr value ++ ", not " ++
          pyRepr (.list (choiceList choices)))))) ∧
    (∀ e : PyErr, pyInChoices value choices = .error e →
      as_choice choices viewName value = .error e) := by
  refine ⟨fun h => ?_, fun h => ?_, fun e h => ?_⟩
  · simp [as_choice, h]
  · simp [as_choice, h]
  · simp [as_choice, h]

/-- Closed witness for `c9_choice_amended`: the member `2` of a mapping
collection is returned raw; the non-member `3` of `[1]` raises the value
error; the unhashable candidate `[]` against a mapping collection raises
the plain `TypeError`. -/
theorem c9_choice_amended_witness :
    as_choice (.dict [(.int 2, .str "two")]) "root" (.int 2) =
      .ok (.ok (.int 2)) ∧
    as_choice (.list [.int 1]) "root" (.int 3) = .ok (.error (.valueError
      ("root" ++ " must be one of " ++ pyRepr (.int 3) ++ ", not " ++
        pyRepr (.list (choiceList (.list [.int 1])))))) ∧
    as_choice (.dict [(.int 2, .str "two")]) "root" (.list []) =
      .error .typeError :=
  ⟨(c9_choice_amended (.dict [(.int 2, .str "two")]) "root" (.int 2)).1
      (by simp [pyInChoices, keyToValue, pyEq_int_int]),
    (c9_choice_amended (.list [.int 1]) "root" (.int 3)).2.1
      (by simp [pyInChoices, pyEq_int_int]),
    (c9_choice_amended (.dict [(.int 2, .str "two")]) "root"
        (.list [])).2.2 .typeError rfl⟩

end Confit
